import Mathlib

/-!
Shallow embedding of the certificate-automation signer
(`pkg/acme/signer.go`) and of the endpoint resolver
(`pkg/converters/utils/services.go`) of the haproxy-ingress
controller, with theorems checking the specification's claims
against the embedded code.

Modelling conventions:
* `time.Time` instants are modelled as `Int`; `t1.Before(t2)` is `t1 < t2`
  and `now.Add(d)` is `now + d`.
* Go interfaces (the ACME client, the reconciliation cache, DNS and node
  lookups) are modelled as explicit function parameters; a fallible Go
  call returning `(T, error)` becomes `Except ε T`.
* A reachable Go panic (out-of-bounds index) is modelled by an `Option`
  result, `none` standing for the panic.
-/

namespace HAProxyIngress

/-! ### Data model of `pkg/acme/signer.go` -/

/-- Models `acme.Account`: endpoint URL, contact emails and terms-agreed flag.
Two accounts are equal iff all three fields are equal
(`reflect.DeepEqual` on a flat struct). -/
structure Account where
  endpoint : String
  emails : String
  termsAgreed : Bool
deriving DecidableEq

/-- The part of a parsed `x509.Certificate` the signer reads:
`Crt.NotAfter` (expiry instant) and `Crt.DNSNames`. A stored
`acme.TLSSecret` is modelled by its certificate alone (the private key is
never inspected by the code under verification). -/
structure Certificate where
  notAfter : Int
  dnsNames : List String
deriving DecidableEq

/-- The mutable fields of the `signer` struct. The live ACME client is an
opaque handle (`Option Nat`): `none` models the nil `Client`. -/
structure SignerModel where
  account : Account
  client : Option Nat
  expiring : Int
  verifyCount : Nat
deriving DecidableEq

/-- The signer-facing slice of the reconciliation cache: the stored TLS
secrets (an association list, most recent binding first) plus an injected
error for `SetTLSSecretContent` (`none` = storage succeeds). -/
structure CacheModel where
  store : List (String × Certificate)
  setErr : Option String
deriving DecidableEq

/-- Models `Cache.GetTLSSecretContent`: the stored certificate for a secret
name, or `none` when no certificate is stored. -/
def getTLSSecretContent (c : CacheModel) (secretName : String) : Option Certificate :=
  (c.store.find? (fun p => p.1 == secretName)).map (fun p => p.2)

/-- Models `Cache.SetTLSSecretContent`: stores the issued certificate under the
secret name, or fails with the cache's injected storage error. -/
def setTLSSecretContent (c : CacheModel) (secretName : String) (crt : Certificate) :
    Except String CacheModel :=
  match c.setErr with
  | some e => .error e
  | none => .ok { c with store := (secretName, crt) :: c.store }

/-- Models `acme.match`: true iff every domain in `domains` (desired
configuration) occurs in `dnsnames` (current certificate). -/
def matchDomains (domains dnsnames : List String) : Bool :=
  domains.all (fun domain => dnsnames.any (fun dns => domain == dns))

/-- The renewal-trigger test of `signer.verify`, line for line:
`tls == nil || tls.Crt.NotAfter.Before(duedate) || !match(domains, tls.Crt.DNSNames)`. -/
def needsIssue (duedate : Int) (tls : Option Certificate) (domains : List String) : Bool :=
  match tls with
  | none => true
  | some crt => decide (crt.notAfter < duedate) || !matchDomains domains crt.dnsNames

/-- Result of one `signer.verify` (or `signer.Notify`) call: the signer
and cache states after the call, whether `client.Sign` was invoked,
whether `SetTLSSecretContent` was invoked, and the returned error
(`none` = nil). -/
structure VerifyOut where
  signer : SignerModel
  cache : CacheModel
  signCalled : Bool
  storeCalled : Bool
  err : Option String
deriving DecidableEq

/-- Models `signer.verify`. `sign` is the bound client's `Sign` capability and
`now` the current instant; `duedate = now + s.expiring`. -/
def verify (sign : List String → Except String Certificate) (now : Int)
    (s : SignerModel) (cache : CacheModel) (secretName : String)
    (domains : List String) : VerifyOut :=
  let duedate := now + s.expiring
  let tls := getTLSSecretContent cache secretName
  if needsIssue duedate tls domains then
    let s1 := { s with verifyCount := s.verifyCount + 1 }
    match sign domains with
    | .ok crt =>
      match setTLSSecretContent cache secretName crt with
      | .ok cache1 => ⟨s1, cache1, true, true, none⟩
      | .error errTLS => ⟨s1, cache, true, true, some errTLS⟩
    | .error e => ⟨s1, cache, true, false, some e⟩
  else
    ⟨s, cache, false, false, none⟩

/-- Models `signer.HasAccount`: true iff a client is currently bound. -/
def hasAccount (s : SignerModel) : Bool :=
  s.client.isSome

/-- The error message of `signer.Notify` when no account is bound. -/
def uninitializedAccountMsg : String :=
  "acme: account was not properly initialized"

/-- Models `signer.Notify`: fails when no client is bound; otherwise splits the
item on commas into secret name (first part) and domains (rest) and
delegates to `verify`. -/
def notify (sign : List String → Except String Certificate) (now : Int)
    (s : SignerModel) (cache : CacheModel) (item : String) : VerifyOut :=
  if !hasAccount s then
    ⟨s, cache, false, false, some uninitializedAccountMsg⟩
  else
    let cert := item.splitOn ","
    let secretName := cert.headD ""
    let domains := cert.tail
    verify sign now s cache secretName domains

/-- The endpoint-alias normalization at the top of `signer.AcmeAccount`. -/
def normalizeEndpoint (endpoint : String) : String :=
  if endpoint = "v2" ∨ endpoint = "v02" then
    "https://acme-v02.api.letsencrypt.org"
  else if endpoint = "v2-staging" ∨ endpoint = "v02-staging" then
    "https://acme-staging-v02.api.letsencrypt.org"
  else endpoint

/-- Models `signer.AcmeAccount`. `newClient` models `acme.NewClient` (may
fail). On an unchanged account tuple nothing happens; otherwise the
current client is dropped first, then the disabled tuple leaves signing
disabled, a failing client construction leaves signing disabled, and a
successful construction installs the new account and client. -/
def acmeAccount (newClient : Account → Except String Nat) (s : SignerModel)
    (endpoint emails : String) (termsAgreed : Bool) : SignerModel :=
  let endpoint1 := normalizeEndpoint endpoint
  let account : Account := ⟨endpoint1, emails, termsAgreed⟩
  if s.account = account then s
  else
    let s1 := { s with client := none }
    if endpoint1 = "" ∧ emails = "" ∧ termsAgreed = false then s1
    else
      match newClient account with
      | .error _ => s1
      | .ok c => { s1 with account := account, client := some c }

/-! ### Data model of `pkg/converters/utils/services.go` -/

/-- Models the constant `defaultServerWeight`. -/
def defaultServerWeight : Int := 50

/-- The node-weight annotation key `ingress.kubernetes.io/node-weight`. -/
def nodeWeightKey : String := "ingress.kubernetes.io/node-weight"

/-- Models `api.ProtocolTCP`. -/
def protocolTCP : String := "TCP"

/-- Models `api.ServiceTypeExternalName`. -/
def serviceTypeExternalName : String := "ExternalName"

/-- The fields of `api.ObjectReference` read by `newEndpoint`. -/
structure ObjectReference where
  ns : String
  name : String
deriving DecidableEq

/-- Models `utils.Endpoint`. -/
structure Endpoint where
  ip : String
  port : Int
  target : String
  targetRef : String
  nodeName : Option String
  weight : Int
deriving DecidableEq

/-- Models `newEndpoint`: derives the `Target` string `ip:port`; `NodeName` and
`Weight` keep their Go zero values (`nil` and `0`). -/
def newEndpoint (ip : String) (port : Int) (targetRef : Option ObjectReference) : Endpoint :=
  { ip := ip
    port := port
    target := ip ++ ":" ++ toString port
    targetRef :=
      match targetRef with
      | some r => r.ns ++ "/" ++ r.name
      | none => ""
    nodeName := none
    weight := 0 }

/-- The fields of `api.Node` read by `getNodeWeight`. -/
structure Node where
  annotations : List (String × String)
deriving DecidableEq

/-- Models `getNodeWeight`: reads the node-weight annotation of the endpoint's
source node, accepting it only in the range 1..127, and falls back to
`defaultServerWeight` on a missing node name, a failing node lookup, a
missing annotation key, a non-numeric value, or an out-of-range value. -/
def getNodeWeight {ε : Type} (getNodeByName : String → Except ε Node)
    (nodeName : Option String) : Int :=
  match nodeName with
  | none => defaultServerWeight
  | some name =>
    match getNodeByName name with
    | .error _ => defaultServerWeight
    | .ok node =>
      match (node.annotations.find? (fun p => p.1 == nodeWeightKey)).map (fun p => p.2) with
      | none => defaultServerWeight
      | some weightStr =>
        match weightStr.toInt? with
        | none => defaultServerWeight
        | some weight =>
          if weight < 1 ∨ weight > 127 then defaultServerWeight else weight

/-- The fields of `api.ServicePort` read by the resolver. -/
structure ServicePort where
  name : String
  port : Int
  protocol : String
deriving DecidableEq

/-- The fields of `api.EndpointAddress` read by the legacy path. -/
structure EndpointAddress where
  ip : String
  targetRef : Option ObjectReference
  nodeName : Option String
deriving DecidableEq

/-- The fields of `api.EndpointPort` (legacy representation). -/
structure EndpointPort where
  name : String
  port : Int
  protocol : String
deriving DecidableEq

/-- Models `api.EndpointSubset`. -/
structure EndpointSubset where
  addresses : List EndpointAddress
  notReadyAddresses : List EndpointAddress
  ports : List EndpointPort
deriving DecidableEq

/-- Models `api.Endpoints`. -/
structure EndpointsData where
  subsets : List EndpointSubset
deriving DecidableEq

/-- Models `matchPort`: the legacy port filter — protocol must be TCP and the
service port's name, when present, must match the endpoint port's name. -/
def matchPort (svcPort : ServicePort) (epPort : EndpointPort) : Bool :=
  if epPort.protocol ≠ protocolTCP then false
  else svcPort.name == "" || svcPort.name == epPort.name

/-- A ready endpoint of the legacy path: `newEndpoint` plus the source
node name and the node-resolved weight. -/
def mkReadyEndpoint (getW : Option String → Int) (port : Int)
    (addr : EndpointAddress) : Endpoint :=
  { newEndpoint addr.ip port addr.targetRef with
      nodeName := addr.nodeName
      weight := getW addr.nodeName }

/-- The inner loop of `createEndpoints` over one subset's ports: each
matching port contributes one ready endpoint per address (with node name
and node weight) and one not-ready endpoint per not-ready address (with
the Go zero weight). -/
def subsetPortsEndpoints (getW : Option String → Int) (svcPort : ServicePort)
    (subset : EndpointSubset) : List EndpointPort → List Endpoint × List Endpoint
  | [] => ([], [])
  | epPort :: rest =>
    let acc := subsetPortsEndpoints getW svcPort subset rest
    if matchPort svcPort epPort then
      (subset.addresses.map (mkReadyEndpoint getW epPort.port) ++ acc.1,
       subset.notReadyAddresses.map (fun addr => newEndpoint addr.ip epPort.port addr.targetRef)
         ++ acc.2)
    else acc

/-- The outer loop of `createEndpoints` over the subsets. -/
def subsetsEndpoints (getW : Option String → Int) (svcPort : ServicePort) :
    List EndpointSubset → List Endpoint × List Endpoint
  | [] => ([], [])
  | subset :: rest =>
    let acc1 := subsetPortsEndpoints getW svcPort subset subset.ports
    let acc2 := subsetsEndpoints getW svcPort rest
    (acc1.1 ++ acc2.1, acc1.2 ++ acc2.2)

/-- Models `createEndpoints` (legacy list-based representation). The Go
function's error result is always nil, so the model returns the pair. -/
def createEndpoints (getW : Option String → Int) (endpoints : EndpointsData)
    (svcPort : ServicePort) : List Endpoint × List Endpoint :=
  subsetsEndpoints getW svcPort endpoints.subsets

/-- The fields of `discoveryv1.EndpointPort` read by the slice path. The
Go fields are pointers dereferenced unconditionally; they are modelled as
plain values. -/
structure SliceEndpointPort where
  name : String
  port : Int
  protocol : String
deriving DecidableEq

/-- The fields of `discoveryv1.Endpoint` read by the slice path.
`ready` is `Conditions.Ready` (`*bool`, may be absent). -/
structure SliceEndpoint where
  addresses : List String
  ready : Option Bool
  targetRef : Option ObjectReference
  nodeName : Option String
deriving DecidableEq

/-- Models `discoveryv1.EndpointSlice`. -/
structure EndpointSlice where
  ports : List SliceEndpointPort
  endpoints : List SliceEndpoint
deriving DecidableEq

/-- The slice-path port filter of `createEndpointSlices`: the service
port's protocol (default TCP when unspecified) must equal the endpoint
port's protocol, and the service port's name, when present, must match
the endpoint port's name. -/
def slicePortMatches (svcPort : ServicePort) (epPort : SliceEndpointPort) : Bool :=
  let svcPortProtocol := if svcPort.protocol ≠ "" then svcPort.protocol else protocolTCP
  svcPortProtocol == epPort.protocol && (svcPort.name == "" || svcPort.name == epPort.name)

/-- The endpoint built by the slice path from the first address of a
slice endpoint. -/
def mkSliceEndpoint (getW : Option String → Int) (port : Int)
    (endpoint : SliceEndpoint) (addr0 : String) : Endpoint :=
  { newEndpoint addr0 port endpoint.targetRef with
      nodeName := endpoint.nodeName
      weight := getW endpoint.nodeName }

/-- The loop of `createEndpointSlices` over one matching port's
endpoints. The code reads `endpoint.Addresses[0]` unconditionally, so an
endpoint with an empty address list makes the Go code panic: modelled as
`none`. An endpoint whose `Ready` condition is absent or true goes to the
ready list, present-and-false to the not-ready list. -/
def sliceEndpointsFor (getW : Option String → Int) (port : Int) :
    List SliceEndpoint → Option (List Endpoint × List Endpoint)
  | [] => some ([], [])
  | endpoint :: rest =>
    match endpoint.addresses with
    | [] => none
    | addr0 :: _ =>
      let domainEndpoint := mkSliceEndpoint getW port endpoint addr0
      match sliceEndpointsFor getW port rest with
      | none => none
      | some acc =>
        match endpoint.ready with
        | none => some (domainEndpoint :: acc.1, acc.2)
        | some true => some (domainEndpoint :: acc.1, acc.2)
        | some false => some (acc.1, domainEndpoint :: acc.2)

/-- The loop of `createEndpointSlices` over one slice's ports. -/
def slicePortsEndpoints (getW : Option String → Int) (svcPort : ServicePort)
    (slice : EndpointSlice) :
    List SliceEndpointPort → Option (List Endpoint × List Endpoint)
  | [] => some ([], [])
  | epPort :: rest =>
    if slicePortMatches svcPort epPort then
      match sliceEndpointsFor getW epPort.port slice.endpoints with
      | none => none
      | some acc1 =>
        match slicePortsEndpoints getW svcPort slice rest with
        | none => none
        | some acc2 => some (acc1.1 ++ acc2.1, acc1.2 ++ acc2.2)
    else slicePortsEndpoints getW svcPort slice rest

/-- The outer loop of `createEndpointSlices` over the slices. -/
def slicesEndpoints (getW : Option String → Int) (svcPort : ServicePort) :
    List EndpointSlice → Option (List Endpoint × List Endpoint)
  | [] => some ([], [])
  | slice :: rest =>
    match slicePortsEndpoints getW svcPort slice slice.ports with
    | none => none
    | some acc1 =>
      match slicesEndpoints getW svcPort rest with
      | none => none
      | some acc2 => some (acc1.1 ++ acc2.1, acc1.2 ++ acc2.2)

/-- Models `createEndpointSlices` (slice-based representation); `none` models a
reachable panic on an empty `Addresses` list. -/
def createEndpointSlices (getW : Option String → Int)
    (endpointSlices : List EndpointSlice) (svcPort : ServicePort) :
    Option (List Endpoint × List Endpoint) :=
  slicesEndpoints getW svcPort endpointSlices

/-- The fields of `api.Service` read by the resolver. -/
structure Service where
  type : String
  clusterIP : String
  externalName : String
deriving DecidableEq

/-- A Go `error` flowing out of `CreateEndpoints`: either an error value
produced by a lookup collaborator (carried unchanged) or the
`fmt.Errorf("invalid port number: %d", port)` error. -/
inductive GoErr (ε : Type) where
  | collab (e : ε)
  | invalidPort (port : Int)
deriving DecidableEq

/-- Models `createEndpointsExternalName`: fails on a non-positive declared port
before consulting DNS, propagates a DNS lookup failure, and otherwise
emits one endpoint per resolved address with the declared port. -/
def createEndpointsExternalName {ε : Type}
    (externalNameLookup : String → Except ε (List String))
    (svc : Service) (svcPort : ServicePort) : Except (GoErr ε) (List Endpoint) :=
  if svcPort.port ≤ 0 then .error (.invalidPort svcPort.port)
  else
    match externalNameLookup svc.externalName with
    | .error e => .error (.collab e)
    | .ok addr => .ok (addr.map (fun ip => newEndpoint ip svcPort.port none))

/-- The resolver-facing slice of the reconciliation cache. -/
structure CacheFns (ε : Type) where
  getEndpoints : Service → Except ε EndpointsData
  getEndpointSlices : Service → Except ε (List EndpointSlice)
  externalNameLookup : String → Except ε (List String)
  getNodeByName : String → Except ε Node

/-- Insertion into a list sorted by `le`. -/
def insertSorted {α : Type} (le : α → α → Bool) (a : α) : List α → List α
  | [] => [a]
  | b :: rest => if le a b then a :: b :: rest else b :: insertSorted le a rest

/-- Sorting by `le`; models Go's `sort.Slice`, which guarantees only that
the result is a permutation ordered by the comparison. -/
def sortBy {α : Type} (le : α → α → Bool) : List α → List α
  | [] => []
  | a :: rest => insertSorted le a (sortBy le rest)

/-- The comparison of the two `sort.Slice` calls in `CreateEndpoints`:
ascending by the `Target` string. -/
def endpointLE (a b : Endpoint) : Bool :=
  decide (a.target ≤ b.target)

/-- Models `CreateEndpoints`: external-name services resolve through DNS, the
slice flag selects the representation, lookup errors are returned, and
both produced lists are sorted by `Target` before being returned; `none`
models the slice path's reachable panic. -/
def CreateEndpoints {ε : Type} (cache : CacheFns ε) (svc : Service)
    (svcPort : ServicePort) (useEndpointSlices : Bool) :
    Option (Except (GoErr ε) (List Endpoint × List Endpoint)) :=
  let raw : Option (Except (GoErr ε) (List Endpoint × List Endpoint)) :=
    if svc.type = serviceTypeExternalName then
      match createEndpointsExternalName cache.externalNameLookup svc svcPort with
      | .error e => some (.error e)
      | .ok ready => some (.ok (ready, []))
    else if useEndpointSlices then
      match cache.getEndpointSlices svc with
      | .error e1 => some (.error (.collab e1))
      | .ok endpoints =>
        match createEndpointSlices (getNodeWeight cache.getNodeByName) endpoints svcPort with
        | none => none
        | some acc => some (.ok acc)
    else
      match cache.getEndpoints svc with
      | .error e1 => some (.error (.collab e1))
      | .ok endpoints =>
        some (.ok (createEndpoints (getNodeWeight cache.getNodeByName) endpoints svcPort))
  match raw with
  | none => none
  | some (.error e) => some (.error e)
  | some (.ok acc) => some (.ok (sortBy endpointLE acc.1, sortBy endpointLE acc.2))

/-! ### Lemmas about the signer -/

theorem matchDomains_eq_true_iff (domains dnsnames : List String) :
    matchDomains domains dnsnames = true ↔ ∀ d ∈ domains, d ∈ dnsnames := by
  simp only [matchDomains, List.all_eq_true, List.any_eq_true, beq_iff_eq]
  constructor
  · intro h d hd
    obtain ⟨dns, hdns, heq⟩ := h d hd
    exact heq ▸ hdns
  · intro h d hd
    exact ⟨d, h d hd, rfl⟩

theorem needsIssue_eq_true_iff (duedate : Int) (tls : Option Certificate)
    (domains : List String) :
    needsIssue duedate tls domains = true ↔
      tls = none ∨ ∃ crt, tls = some crt ∧
        (crt.notAfter < duedate ∨ ¬ ∀ d ∈ domains, d ∈ crt.dnsNames) := by
  cases tls with
  | none => simp [needsIssue]
  | some crt =>
    constructor
    · intro h
      refine Or.inr ⟨crt, rfl, ?_⟩
      simp only [needsIssue, Bool.or_eq_true, decide_eq_true_eq, Bool.not_eq_true'] at h
      rcases h with h | h
      · exact Or.inl h
      · exact Or.inr (by rw [Bool.eq_false_iff, Ne, matchDomains_eq_true_iff] at h; exact h)
    · rintro (h | ⟨crt1, hc, h⟩)
      · exact Option.noConfusion h
      · obtain rfl := Option.some.inj hc
        simp only [needsIssue, Bool.or_eq_true, decide_eq_true_eq, Bool.not_eq_true']
        rcases h with h | h
        · exact Or.inl h
        · exact Or.inr (by rw [Bool.eq_false_iff, Ne, matchDomains_eq_true_iff]; exact h)

theorem verify_signCalled_of_needsIssue (sign : List String → Except String Certificate)
    (now : Int) (s : SignerModel) (cache : CacheModel) (secretName : String)
    (domains : List String)
    (h : needsIssue (now + s.expiring) (getTLSSecretContent cache secretName) domains = true) :
    (verify sign now s cache secretName domains).signCalled = true := by
  simp only [verify, h, if_true]
  split
  · split <;> rfl
  · rfl

theorem verify_skip_of_not_needsIssue (sign : List String → Except String Certificate)
    (now : Int) (s : SignerModel) (cache : CacheModel) (secretName : String)
    (domains : List String)
    (h : needsIssue (now + s.expiring) (getTLSSecretContent cache secretName) domains = false) :
    verify sign now s cache secretName domains = ⟨s, cache, false, false, none⟩ := by
  simp only [verify, h]
  rfl

theorem getTLSSecretContent_set (store : List (String × Certificate))
    (setErr : Option String) (secretName : String) (crt : Certificate) :
    getTLSSecretContent ⟨(secretName, crt) :: store, setErr⟩ secretName = some crt := by
  simp [getTLSSecretContent, List.find?]

/-! ### Claim theorems about the signer -/

/-- C1: `verify` calls the signing capability exactly when no certificate
is stored for the secret name, or the stored certificate's expiry is
before `now + expiring`, or the stored certificate's DNS-name set does
not contain every requested domain; when none of these holds it performs
no signing or storage call, leaves the signer and cache unchanged, and
returns nil. -/
theorem verify_triggers_iff (sign : List String → Except String Certificate)
    (now : Int) (s : SignerModel) (cache : CacheModel) (secretName : String)
    (domains : List String) :
    ((verify sign now s cache secretName domains).signCalled = true ↔
      getTLSSecretContent cache secretName = none
      ∨ ∃ crt, getTLSSecretContent cache secretName = some crt ∧
          (crt.notAfter < now + s.expiring ∨ ¬ ∀ d ∈ domains, d ∈ crt.dnsNames))
    ∧ (∀ crt, getTLSSecretContent cache secretName = some crt →
        ¬ crt.notAfter < now + s.expiring → (∀ d ∈ domains, d ∈ crt.dnsNames) →
        verify sign now s cache secretName domains = ⟨s, cache, false, false, none⟩) := by
  constructor
  · constructor
    · intro h
      rw [← needsIssue_eq_true_iff (now + s.expiring) (getTLSSecretContent cache secretName)]
      by_contra hno
      rw [Bool.not_eq_true] at hno
      rw [verify_skip_of_not_needsIssue sign now s cache secretName domains hno] at h
      exact Bool.false_ne_true h
    · intro h
      exact verify_signCalled_of_needsIssue sign now s cache secretName domains
        ((needsIssue_eq_true_iff _ _ _).mpr h)
  · intro crt hcrt hexp hdom
    apply verify_skip_of_not_needsIssue
    rw [Bool.eq_false_iff]
    intro htrig
    rcases (needsIssue_eq_true_iff _ _ _).mp htrig with hnone | ⟨crt1, hcrt1, hbad⟩
    · rw [hcrt] at hnone; exact Option.noConfusion hnone
    · rw [hcrt] at hcrt1
      cases Option.some.injEq .. ▸ hcrt1
      rcases hbad with hlt | hmiss
      · exact hexp hlt
      · exact hmiss hdom

/-- Witness for C1: scenario C — a stored certificate that exactly covers
the requested domains and expires 90 days out against a 30-day window
causes no signing call and no state change. -/
theorem verify_triggers_iff_witness :
    verify (fun _ => .error "unused") 0
        ⟨⟨"e", "m", true⟩, some 0, 30, 0⟩
        ⟨[("site-tls", ⟨90, ["a.example.com"]⟩)], none⟩
        "site-tls" ["a.example.com"] =
      ⟨⟨⟨"e", "m", true⟩, some 0, 30, 0⟩,
       ⟨[("site-tls", ⟨90, ["a.example.com"]⟩)], none⟩, false, false, none⟩ :=
  (verify_triggers_iff (fun _ => .error "unused") 0
      ⟨⟨"e", "m", true⟩, some 0, 30, 0⟩
      ⟨[("site-tls", ⟨90, ["a.example.com"]⟩)], none⟩
      "site-tls" ["a.example.com"]).2
    ⟨90, ["a.example.com"]⟩ (by decide) (by decide) (by decide)

/-- C3: `match` returns true iff every requested domain occurs among the
certificate's DNS names; consequently a certificate covering a superset
satisfies the request, any requested domain missing from the certificate
fails the match, and an empty request matches vacuously. -/
theorem match_superset_iff (domains dnsnames : List String) :
    (matchDomains domains dnsnames = true ↔ ∀ d ∈ domains, d ∈ dnsnames)
    ∧ (domains ⊆ dnsnames → matchDomains domains dnsnames = true)
    ∧ (∀ d, d ∈ domains → d ∉ dnsnames → matchDomains domains dnsnames = false)
    ∧ matchDomains [] dnsnames = true := by
  refine ⟨matchDomains_eq_true_iff domains dnsnames, ?_, ?_, ?_⟩
  · intro hsub
    exact (matchDomains_eq_true_iff domains dnsnames).mpr fun d hd => hsub hd
  · intro d hd hnot
    rw [Bool.eq_false_iff]
    intro htrue
    exact hnot ((matchDomains_eq_true_iff domains dnsnames).mp htrue d hd)
  · exact (matchDomains_eq_true_iff [] dnsnames).mpr (by simp)

/-- Witness for C3: a certificate covering a strict superset satisfies the
request, and a request with a missing domain fails. -/
theorem match_superset_iff_witness :
    matchDomains ["a"] ["b", "a"] = true ∧ matchDomains ["a", "c"] ["b", "a"] = false :=
  ⟨(match_superset_iff ["a"] ["b", "a"]).2.1 (by decide),
   (match_superset_iff ["a", "c"] ["b", "a"]).2.2.1 "c" (by decide) (by decide)⟩

/-- C5: `Notify` returns the "uninitialized account" error exactly when no
client is bound, and otherwise splits the item on commas into the secret
name (first part) and domain list (rest) and returns the result of
`verify`. -/
theorem notify_uninitialized_or_delegates
    (sign : List String → Except String Certificate) (now : Int)
    (s : SignerModel) (cache : CacheModel) (item : String) :
    (hasAccount s = false →
      notify sign now s cache item = ⟨s, cache, false, false, some uninitializedAccountMsg⟩)
    ∧ (hasAccount s = true →
      notify sign now s cache item =
        verify sign now s cache ((item.splitOn ",").headD "") ((item.splitOn ",").tail)) := by
  constructor <;> intro h <;> simp [notify, h]

/-- Witness for C5: with a bound client, `Notify` delegates to `verify`
on the comma-split parts; with no client it returns the initialization
error. -/
theorem notify_uninitialized_or_delegates_witness :
    notify (fun _ => .error "unused") 0 ⟨⟨"e", "m", true⟩, some 0, 30, 0⟩ ⟨[], none⟩
        "site-tls,a.example.com" =
      verify (fun _ => .error "unused") 0 ⟨⟨"e", "m", true⟩, some 0, 30, 0⟩ ⟨[], none⟩
        (("site-tls,a.example.com".splitOn ",").headD "")
        (("site-tls,a.example.com".splitOn ",").tail) :=
  (notify_uninitialized_or_delegates (fun _ => .error "unused") 0
      ⟨⟨"e", "m", true⟩, some 0, 30, 0⟩ ⟨[], none⟩ "site-tls,a.example.com").2 (by decide)

/-- C6: when the normalized account tuple equals the stored one,
`AcmeAccount` is a no-op (account, client, expiring window and
verification counter all unchanged); when it differs, the previously
bound client is dropped — afterwards the client is either `nil` or the
freshly constructed one. -/
theorem acmeAccount_noop_or_drop (newClient : Account → Except String Nat)
    (s : SignerModel) (endpoint emails : String) (termsAgreed : Bool) :
    (Account.mk (normalizeEndpoint endpoint) emails termsAgreed = s.account →
      acmeAccount newClient s endpoint emails termsAgreed = s)
    ∧ (Account.mk (normalizeEndpoint endpoint) emails termsAgreed ≠ s.account →
      (acmeAccount newClient s endpoint emails termsAgreed).client = none
      ∨ ∃ c, newClient (Account.mk (normalizeEndpoint endpoint) emails termsAgreed) = .ok c
          ∧ (acmeAccount newClient s endpoint emails termsAgreed).client = some c) := by
  constructor
  · intro h
    simp [acmeAccount, h.symm]
  · intro h
    have hne : ¬ s.account = Account.mk (normalizeEndpoint endpoint) emails termsAgreed :=
      fun heq => h heq.symm
    simp only [acmeAccount, if_neg hne]
    cases hc : newClient (Account.mk (normalizeEndpoint endpoint) emails termsAgreed) with
    | error e =>
      simp only [hc]
      split <;> exact Or.inl rfl
    | ok c =>
      simp only [hc]
      split
      · exact Or.inl rfl
      · exact Or.inr ⟨c, rfl, rfl⟩

/-- Witness for C6: changing the account from the disabled tuple to a
live one drops the old client and installs the newly constructed one. -/
theorem acmeAccount_noop_or_drop_witness :
    (acmeAccount (fun _ => .ok 7) ⟨⟨"", "", false⟩, some 3, 30, 0⟩ "v2" "a@b" true).client = none
    ∨ ∃ c, (fun _ => Except.ok 7 : Account → Except String Nat)
          (Account.mk (normalizeEndpoint "v2") "a@b" true) = .ok c
        ∧ (acmeAccount (fun _ => .ok 7) ⟨⟨"", "", false⟩, some 3, 30, 0⟩ "v2" "a@b" true).client
            = some c :=
  (acmeAccount_noop_or_drop (fun _ => .ok 7) ⟨⟨"", "", false⟩, some 3, 30, 0⟩
      "v2" "a@b" true).2 (by decide)

/-- C4 counterexample: with a signing capability that fails, two
successive `verify` calls on an unchanged cache both invoke the signing
capability — the claim's "at most once" does not hold as stated. -/
theorem verify_twice_counterexample :
    ((verify (fun _ => .error "boom") 0 ⟨⟨"e", "m", true⟩, some 0, 30, 0⟩ ⟨[], none⟩
        "site-tls" ["a.example.com"]).signCalled = true)
    ∧ ((verify (fun _ => .error "boom") 0
        (verify (fun _ => .error "boom") 0 ⟨⟨"e", "m", true⟩, some 0, 30, 0⟩ ⟨[], none⟩
          "site-tls" ["a.example.com"]).signer
        (verify (fun _ => .error "boom") 0 ⟨⟨"e", "m", true⟩, some 0, 30, 0⟩ ⟨[], none⟩
          "site-tls" ["a.example.com"]).cache
        "site-tls" ["a.example.com"]).signCalled = true) := by
  decide

/-- C4 (amended): when storage succeeds and the signing capability, if
invoked, returns a certificate that is not yet expiring and covers every
requested domain, two successive `verify` calls with unchanged inputs
invoke signing at most once: the second call is exactly the no-op skip
path. -/
theorem verify_twice_skips (sign : List String → Except String Certificate)
    (now : Int) (s : SignerModel) (cache : CacheModel) (secretName : String)
    (domains : List String)
    (hset : cache.setErr = none)
    (hsign : ∃ crt, sign domains = .ok crt ∧ ¬ crt.notAfter < now + s.expiring ∧
        ∀ d ∈ domains, d ∈ crt.dnsNames) :
    verify sign now (verify sign now s cache secretName domains).signer
        (verify sign now s cache secretName domains).cache secretName domains =
      ⟨(verify sign now s cache secretName domains).signer,
       (verify sign now s cache secretName domains).cache, false, false, none⟩ := by
  obtain ⟨crt, hok, hexp, hdom⟩ := hsign
  cases htrig : needsIssue (now + s.expiring) (getTLSSecretContent cache secretName) domains with
  | false =>
    rw [verify_skip_of_not_needsIssue sign now s cache secretName domains htrig]
    exact verify_skip_of_not_needsIssue sign now s cache secretName domains htrig
  | true =>
    have hstep : verify sign now s cache secretName domains =
        ⟨{ s with verifyCount := s.verifyCount + 1 },
         { cache with store := (secretName, crt) :: cache.store }, true, true, none⟩ := by
      simp only [verify, htrig, if_true, hok]
      simp [setTLSSecretContent, hset]
    rw [hstep]
    apply verify_skip_of_not_needsIssue
    rw [Bool.eq_false_iff]
    intro hbad
    rcases (needsIssue_eq_true_iff _ _ _).mp hbad with hnone | ⟨crt1, hc1, hc2⟩
    · rw [getTLSSecretContent_set] at hnone
      exact Option.noConfusion hnone
    · rw [getTLSSecretContent_set] at hc1
      obtain rfl := Option.some.inj hc1
      rcases hc2 with hlt | hmiss
      · exact hexp hlt
      · exact hmiss hdom

/-- Witness for C4 (amended): a well-behaved signing capability issues
once and the immediate re-check takes the skip path. -/
theorem verify_twice_skips_witness :
    verify (fun _ => .ok ⟨90, ["a.example.com"]⟩) 0
        (verify (fun _ => .ok ⟨90, ["a.example.com"]⟩) 0
          ⟨⟨"e", "m", true⟩, some 0, 30, 0⟩ ⟨[], none⟩ "site-tls" ["a.example.com"]).signer
        (verify (fun _ => .ok ⟨90, ["a.example.com"]⟩) 0
          ⟨⟨"e", "m", true⟩, some 0, 30, 0⟩ ⟨[], none⟩ "site-tls" ["a.example.com"]).cache
        "site-tls" ["a.example.com"] =
      ⟨(verify (fun _ => .ok ⟨90, ["a.example.com"]⟩) 0
          ⟨⟨"e", "m", true⟩, some 0, 30, 0⟩ ⟨[], none⟩ "site-tls" ["a.example.com"]).signer,
       (verify (fun _ => .ok ⟨90, ["a.example.com"]⟩) 0
          ⟨⟨"e", "m", true⟩, some 0, 30, 0⟩ ⟨[], none⟩ "site-tls" ["a.example.com"]).cache,
       false, false, none⟩ :=
  verify_twice_skips (fun _ => .ok ⟨90, ["a.example.com"]⟩) 0
    ⟨⟨"e", "m", true⟩, some 0, 30, 0⟩ ⟨[], none⟩ "site-tls" ["a.example.com"]
    rfl ⟨⟨90, ["a.example.com"]⟩, rfl, by decide, by decide⟩

/-! ### Lemmas about sorting -/

theorem mem_insertSorted {α : Type} (le : α → α → Bool) (a : α) (l : List α) (x : α) :
    x ∈ insertSorted le a l ↔ x = a ∨ x ∈ l := by
  induction l with
  | nil => simp [insertSorted]
  | cons b t ih =>
    simp only [insertSorted]
    split
    · simp [List.mem_cons]
    · simp only [List.mem_cons, ih]
      tauto

theorem insertSorted_perm {α : Type} (le : α → α → Bool) (a : α) (l : List α) :
    (insertSorted le a l).Perm (a :: l) := by
  induction l with
  | nil => exact List.Perm.refl _
  | cons b t ih =>
    simp only [insertSorted]
    split
    · exact List.Perm.refl _
    · exact (List.Perm.cons b ih).trans (List.Perm.swap a b t)

theorem sortBy_perm {α : Type} (le : α → α → Bool) (l : List α) :
    (sortBy le l).Perm l := by
  induction l with
  | nil => exact List.Perm.refl _
  | cons a t ih =>
    exact (insertSorted_perm le a (sortBy le t)).trans (List.Perm.cons a ih)

theorem pairwise_insertSorted {α : Type} (le : α → α → Bool)
    (htrans : ∀ a b c, le a b = true → le b c = true → le a c = true)
    (htot : ∀ a b, le a b = true ∨ le b a = true) (a : α) (l : List α)
    (h : l.Pairwise (fun x y => le x y = true)) :
    (insertSorted le a l).Pairwise (fun x y => le x y = true) := by
  induction l with
  | nil => simp [insertSorted]
  | cons b t ih =>
    rw [List.pairwise_cons] at h
    obtain ⟨hb, ht⟩ := h
    simp only [insertSorted]
    split
    · rename_i hab
      rw [List.pairwise_cons]
      refine ⟨?_, List.pairwise_cons.mpr ⟨hb, ht⟩⟩
      intro x hx
      rcases List.mem_cons.mp hx with rfl | hxt
      · exact hab
      · exact htrans a b x hab (hb x hxt)
    · rename_i hab
      rw [List.pairwise_cons]
      refine ⟨?_, ih ht⟩
      intro x hx
      rcases (mem_insertSorted le a t x).mp hx with rfl | hxt
      · rcases htot x b with hxb | hbx
        · exact absurd hxb hab
        · exact hbx
      · exact hb x hxt

theorem pairwise_sortBy {α : Type} (le : α → α → Bool)
    (htrans : ∀ a b c, le a b = true → le b c = true → le a c = true)
    (htot : ∀ a b, le a b = true ∨ le b a = true) (l : List α) :
    (sortBy le l).Pairwise (fun x y => le x y = true) := by
  induction l with
  | nil => simp [sortBy]
  | cons a t ih => exact pairwise_insertSorted le htrans htot a (sortBy le t) ih

theorem endpointLE_trans (a b c : Endpoint) :
    endpointLE a b = true → endpointLE b c = true → endpointLE a c = true := by
  simp only [endpointLE, decide_eq_true_eq]
  exact le_trans

theorem endpointLE_total (a b : Endpoint) :
    endpointLE a b = true ∨ endpointLE b a = true := by
  simp only [endpointLE, decide_eq_true_eq]
  exact le_total a.target b.target

theorem sortBy_endpointLE_sorted (l : List Endpoint) :
    (sortBy endpointLE l).Pairwise (fun a b => a.target ≤ b.target) := by
  refine (pairwise_sortBy endpointLE ?_ ?_ l).imp ?_
  · exact fun a b c => endpointLE_trans a b c
  · exact endpointLE_total
  · intro a b hab
    exact decide_eq_true_eq.mp hab

/-! ### Lemmas about endpoint weights -/

theorem getNodeWeight_bounds {ε : Type} (getNodeByName : String → Except ε Node)
    (nodeName : Option String) :
    1 ≤ getNodeWeight getNodeByName nodeName ∧ getNodeWeight getNodeByName nodeName ≤ 127 := by
  have hdef : (1 : Int) ≤ defaultServerWeight ∧ defaultServerWeight ≤ 127 := by
    constructor <;> norm_num [defaultServerWeight]
  unfold getNodeWeight
  split
  · exact hdef
  · split
    · exact hdef
    · split
      · exact hdef
      · split
        · exact hdef
        · split
          · exact hdef
          · rename_i hw
            push_neg at hw
            exact ⟨hw.1, hw.2⟩

theorem subsetPortsEndpoints_ready_weight (getW : Option String → Int)
    (svcPort : ServicePort) (subset : EndpointSubset) (ports : List EndpointPort)
    (e : Endpoint) (he : e ∈ (subsetPortsEndpoints getW svcPort subset ports).1) :
    e.weight = getW e.nodeName := by
  induction ports with
  | nil => exact absurd he (List.not_mem_nil e)
  | cons epPort rest ih =>
    simp only [subsetPortsEndpoints] at he
    split at he
    · rcases List.mem_append.mp he with hmap | hrest
      · obtain ⟨addr, _, rfl⟩ := List.mem_map.mp hmap
        rfl
      · exact ih hrest
    · exact ih he

theorem subsetPortsEndpoints_notReady_weight (getW : Option String → Int)
    (svcPort : ServicePort) (subset : EndpointSubset) (ports : List EndpointPort)
    (e : Endpoint) (he : e ∈ (subsetPortsEndpoints getW svcPort subset ports).2) :
    e.weight = 0 := by
  induction ports with
  | nil => exact absurd he (List.not_mem_nil e)
  | cons epPort rest ih =>
    simp only [subsetPortsEndpoints] at he
    split at he
    · rcases List.mem_append.mp he with hmap | hrest
      · obtain ⟨addr, _, rfl⟩ := List.mem_map.mp hmap
        rfl
      · exact ih hrest
    · exact ih he

theorem subsetsEndpoints_ready_weight (getW : Option String → Int)
    (svcPort : ServicePort) (subsets : List EndpointSubset) (e : Endpoint)
    (he : e ∈ (subsetsEndpoints getW svcPort subsets).1) :
    e.weight = getW e.nodeName := by
  induction subsets with
  | nil => exact absurd he (List.not_mem_nil e)
  | cons subset rest ih =>
    simp only [subsetsEndpoints] at he
    rcases List.mem_append.mp he with h1 | h2
    · exact subsetPortsEndpoints_ready_weight getW svcPort subset subset.ports e h1
    · exact ih h2

theorem subsetsEndpoints_notReady_weight (getW : Option String → Int)
    (svcPort : ServicePort) (subsets : List EndpointSubset) (e : Endpoint)
    (he : e ∈ (subsetsEndpoints getW svcPort subsets).2) :
    e.weight = 0 := by
  induction subsets with
  | nil => exact absurd he (List.not_mem_nil e)
  | cons subset rest ih =>
    simp only [subsetsEndpoints] at he
    rcases List.mem_append.mp he with h1 | h2
    · exact subsetPortsEndpoints_notReady_weight getW svcPort subset subset.ports e h1
    · exact ih h2

theorem sliceEndpointsFor_weight (getW : Option String → Int) (port : Int)
    (es : List SliceEndpoint) (r nr : List Endpoint)
    (h : sliceEndpointsFor getW port es = some (r, nr)) (e : Endpoint)
    (he : e ∈ r ∨ e ∈ nr) : e.weight = getW e.nodeName := by
  induction es generalizing r nr with
  | nil =>
    simp only [sliceEndpointsFor] at h
    obtain ⟨rfl, rfl⟩ := Prod.mk.injEq .. ▸ Option.some.inj h
    rcases he with he | he <;> exact absurd he (List.not_mem_nil e)
  | cons ep rest ih =>
    simp only [sliceEndpointsFor] at h
    cases haddr : ep.addresses with
    | nil => rw [haddr] at h; exact Option.noConfusion h
    | cons a0 atl =>
      rw [haddr] at h
      cases hrest : sliceEndpointsFor getW port rest with
      | none => rw [hrest] at h; exact Option.noConfusion h
      | some acc =>
        rw [hrest] at h
        cases hready : ep.ready with
        | none =>
          rw [hready] at h
          obtain ⟨h1, h2⟩ := Prod.mk.injEq .. ▸ Option.some.inj h
          subst h1; subst h2
          rcases he with he | he
          · rcases List.mem_cons.mp he with rfl | hmem
            · rfl
            · exact ih acc.1 acc.2 (by rw [hrest]) (Or.inl hmem)
          · exact ih acc.1 acc.2 (by rw [hrest]) (Or.inr he)
        | some b =>
          cases b with
          | true =>
            rw [hready] at h
            obtain ⟨h1, h2⟩ := Prod.mk.injEq .. ▸ Option.some.inj h
            subst h1; subst h2
            rcases he with he | he
            · rcases List.mem_cons.mp he with rfl | hmem
              · rfl
              · exact ih acc.1 acc.2 (by rw [hrest]) (Or.inl hmem)
            · exact ih acc.1 acc.2 (by rw [hrest]) (Or.inr he)
          | false =>
            rw [hready] at h
            obtain ⟨h1, h2⟩ := Prod.mk.injEq .. ▸ Option.some.inj h
            subst h1; subst h2
            rcases he with he | he
            · exact ih acc.1 acc.2 (by rw [hrest]) (Or.inl he)
            · rcases List.mem_cons.mp he with rfl | hmem
              · rfl
              · exact ih acc.1 acc.2 (by rw [hrest]) (Or.inr hmem)

theorem slicePortsEndpoints_weight (getW : Option String → Int)
    (svcPort : ServicePort) (slice : EndpointSlice) (ports : List SliceEndpointPort)
    (r nr : List Endpoint)
    (h : slicePortsEndpoints getW svcPort slice ports = some (r, nr)) (e : Endpoint)
    (he : e ∈ r ∨ e ∈ nr) : e.weight = getW e.nodeName := by
  induction ports generalizing r nr with
  | nil =>
    simp only [slicePortsEndpoints] at h
    obtain ⟨rfl, rfl⟩ := Prod.mk.injEq .. ▸ Option.some.inj h
    rcases he with he | he <;> exact absurd he (List.not_mem_nil e)
  | cons epPort rest ih =>
    simp only [slicePortsEndpoints] at h
    split at h
    · cases hfor : sliceEndpointsFor getW epPort.port slice.endpoints with
      | none => rw [hfor] at h; exact Option.noConfusion h
      | some acc1 =>
        rw [hfor] at h
        cases hrest : slicePortsEndpoints getW svcPort slice rest with
        | none => rw [hrest] at h; exact Option.noConfusion h
        | some acc2 =>
          rw [hrest] at h
          obtain ⟨h1, h2⟩ := Prod.mk.injEq .. ▸ Option.some.inj h
          subst h1; subst h2
          rcases he with he | he
          · rcases List.mem_append.mp he with h3 | h3
            · exact sliceEndpointsFor_weight getW epPort.port slice.endpoints acc1.1 acc1.2
                (by rw [hfor]) e (Or.inl h3)
            · exact ih acc2.1 acc2.2 (by rw [hrest]) (Or.inl h3)
          · rcases List.mem_append.mp he with h3 | h3
            · exact sliceEndpointsFor_weight getW epPort.port slice.endpoints acc1.1 acc1.2
                (by rw [hfor]) e (Or.inr h3)
            · exact ih acc2.1 acc2.2 (by rw [hrest]) (Or.inr h3)
    · exact ih r nr h he

theorem slicesEndpoints_weight (getW : Option String → Int)
    (svcPort : ServicePort) (slices : List EndpointSlice) (r nr : List Endpoint)
    (h : slicesEndpoints getW svcPort slices = some (r, nr)) (e : Endpoint)
    (he : e ∈ r ∨ e ∈ nr) : e.weight = getW e.nodeName := by
  induction slices generalizing r nr with
  | nil =>
    simp only [slicesEndpoints] at h
    obtain ⟨rfl, rfl⟩ := Prod.mk.injEq .. ▸ Option.some.inj h
    rcases he with he | he <;> exact absurd he (List.not_mem_nil e)
  | cons slice rest ih =>
    simp only [slicesEndpoints] at h
    cases hp : slicePortsEndpoints getW svcPort slice slice.ports with
    | none => rw [hp] at h; exact Option.noConfusion h
    | some acc1 =>
      rw [hp] at h
      cases hrest : slicesEndpoints getW svcPort rest with
      | none => rw [hrest] at h; exact Option.noConfusion h
      | some acc2 =>
        rw [hrest] at h
        obtain ⟨h1, h2⟩ := Prod.mk.injEq .. ▸ Option.some.inj h
        subst h1; subst h2
        rcases he with he | he
        · rcases List.mem_append.mp he with h3 | h3
          · exact slicePortsEndpoints_weight getW svcPort slice slice.ports acc1.1 acc1.2
              (by rw [hp]) e (Or.inl h3)
          · exact ih acc2.1 acc2.2 (by rw [hrest]) (Or.inl h3)
        · rcases List.mem_append.mp he with h3 | h3
          · exact slicePortsEndpoints_weight getW svcPort slice slice.ports acc1.1 acc1.2
              (by rw [hp]) e (Or.inr h3)
          · exact ih acc2.1 acc2.2 (by rw [hrest]) (Or.inr h3)

theorem mem_sortBy {α : Type} (le : α → α → Bool) (l : List α) (x : α) :
    x ∈ sortBy le l ↔ x ∈ l :=
  (sortBy_perm le l).mem_iff

theorem createEndpointsExternalName_ok_shape {ε : Type}
    (lookup : String → Except ε (List String)) (svc : Service)
    (svcPort : ServicePort) (eps : List Endpoint)
    (h : createEndpointsExternalName lookup svc svcPort = .ok eps) :
    0 < svcPort.port ∧ ∃ ips, lookup svc.externalName = .ok ips ∧
      eps = ips.map (fun ip => newEndpoint ip svcPort.port none) := by
  unfold createEndpointsExternalName at h
  split at h
  · exact absurd h (by simp)
  · rename_i hport
    cases hl : lookup svc.externalName with
    | error e => rw [hl] at h; exact absurd h (by simp)
    | ok ips =>
      rw [hl] at h
      exact ⟨by omega, ips, rfl, (Except.ok.inj h).symm⟩

/-- C2 (amended): both lists returned by `CreateEndpoints` are sorted
ascending by the endpoint's `Target` string. Every ready endpoint of the
two cluster representations, and every not-ready endpoint of the
slice-based representation, has a weight in [1, 127]; however the
legacy representation's not-ready endpoints and the external-name
service's ready endpoints are built without a weight lookup and carry
the Go zero weight 0. -/
theorem createEndpoints_sorted_and_weights {ε : Type} (cache : CacheFns ε)
    (svc : Service) (svcPort : ServicePort) (useEndpointSlices : Bool)
    (ready notReady : List Endpoint)
    (h : CreateEndpoints cache svc svcPort useEndpointSlices =
      some (Except.ok (ready, notReady))) :
    ready.Pairwise (fun a b => a.target ≤ b.target)
    ∧ notReady.Pairwise (fun a b => a.target ≤ b.target)
    ∧ (svc.type ≠ serviceTypeExternalName →
        (∀ e ∈ ready, 1 ≤ e.weight ∧ e.weight ≤ 127)
        ∧ (useEndpointSlices = true → ∀ e ∈ notReady, 1 ≤ e.weight ∧ e.weight ≤ 127)
        ∧ (useEndpointSlices = false → ∀ e ∈ notReady, e.weight = 0))
    ∧ (svc.type = serviceTypeExternalName →
        (∀ e ∈ ready, e.weight = 0) ∧ notReady = []) := by
  by_cases hT : svc.type = serviceTypeExternalName
  · simp only [CreateEndpoints, if_pos hT] at h
    cases hE : createEndpointsExternalName cache.externalNameLookup svc svcPort with
    | error e => simp [hE] at h
    | ok eps =>
      simp only [hE, Option.some.injEq, Except.ok.injEq, Prod.mk.injEq] at h
      obtain ⟨hr, hnr⟩ := h
      subst hr; subst hnr
      obtain ⟨hport, ips, hl, heps⟩ :=
        createEndpointsExternalName_ok_shape cache.externalNameLookup svc svcPort eps hE
      refine ⟨sortBy_endpointLE_sorted eps, sortBy_endpointLE_sorted [],
        fun hc => absurd hT hc, fun _ => ⟨?_, rfl⟩⟩
      intro e he
      rw [mem_sortBy] at he
      rw [heps] at he
      obtain ⟨ip, _, rfl⟩ := List.mem_map.mp he
      rfl
  · cases useEndpointSlices with
    | true =>
      simp only [CreateEndpoints, if_neg hT, if_true] at h
      cases hS : cache.getEndpointSlices svc with
      | error e1 => simp [hS] at h
      | ok slices =>
        simp only [hS] at h
        cases hC : createEndpointSlices (getNodeWeight cache.getNodeByName) slices svcPort with
        | none => simp [hC] at h
        | some acc =>
          simp only [hC, Option.some.injEq, Except.ok.injEq, Prod.mk.injEq] at h
          obtain ⟨hr, hnr⟩ := h
          subst hr; subst hnr
          refine ⟨sortBy_endpointLE_sorted acc.1, sortBy_endpointLE_sorted acc.2,
            fun _ => ⟨?_, fun _ => ?_, fun hcon => Bool.noConfusion hcon⟩,
            fun hc => absurd hc hT⟩
          · intro e he
            rw [mem_sortBy] at he
            have hw := slicesEndpoints_weight (getNodeWeight cache.getNodeByName) svcPort
              slices acc.1 acc.2 (by rw [← hC]; rfl) e (Or.inl he)
            rw [hw]
            exact getNodeWeight_bounds cache.getNodeByName e.nodeName
          · intro e he
            rw [mem_sortBy] at he
            have hw := slicesEndpoints_weight (getNodeWeight cache.getNodeByName) svcPort
              slices acc.1 acc.2 (by rw [← hC]; rfl) e (Or.inr he)
            rw [hw]
            exact getNodeWeight_bounds cache.getNodeByName e.nodeName
    | false =>
      simp only [CreateEndpoints, if_neg hT, Bool.false_eq_true, if_false] at h
      cases hG : cache.getEndpoints svc with
      | error e1 => simp [hG] at h
      | ok eps =>
        simp only [hG, Option.some.injEq, Except.ok.injEq, Prod.mk.injEq] at h
        obtain ⟨hr, hnr⟩ := h
        subst hr; subst hnr
        refine ⟨sortBy_endpointLE_sorted _, sortBy_endpointLE_sorted _,
          fun _ => ⟨?_, fun hcon => Bool.noConfusion hcon, fun _ => ?_⟩,
          fun hc => absurd hc hT⟩
        · intro e he
          rw [mem_sortBy] at he
          have hw := subsetsEndpoints_ready_weight (getNodeWeight cache.getNodeByName)
            svcPort eps.subsets e he
          rw [hw]
          exact getNodeWeight_bounds cache.getNodeByName e.nodeName
        · intro e he
          rw [mem_sortBy] at he
          exact subsetsEndpoints_notReady_weight (getNodeWeight cache.getNodeByName)
            svcPort eps.subsets e he

/-- C2 counterexample: on the legacy representation a not-ready address
produces an endpoint whose weight is the Go zero value 0, outside the
claimed range [1, 127]. -/
theorem createEndpoints_weight_counterexample :
    CreateEndpoints (ε := String)
        ⟨fun _ => .ok ⟨[⟨[], [⟨"10.0.0.2", none, none⟩], [⟨"", 8080, "TCP"⟩]⟩]⟩,
         fun _ => .ok [], fun _ => .ok [], fun _ => .ok ⟨[]⟩⟩
        ⟨"ClusterIP", "", ""⟩ ⟨"", 8080, "TCP"⟩ false =
      some (.ok ([], [⟨"10.0.0.2", 8080, "10.0.0.2:8080", "", none, 0⟩]))
    ∧ ¬ (1 ≤ (Endpoint.mk "10.0.0.2" 8080 "10.0.0.2:8080" "" none 0).weight) :=
  ⟨rfl, by decide⟩

/-- Witness for C2 (amended): a concrete legacy resolution with one ready
address yields a sorted singleton whose weight is the default 50. -/
theorem createEndpoints_sorted_and_weights_witness :
    1 ≤ (Endpoint.mk "10.0.0.1" 8080 "10.0.0.1:8080" "" (some "n1") 50).weight
    ∧ (Endpoint.mk "10.0.0.1" 8080 "10.0.0.1:8080" "" (some "n1") 50).weight ≤ 127 :=
  ((createEndpoints_sorted_and_weights (ε := String)
      ⟨fun _ => .ok ⟨[⟨[⟨"10.0.0.1", none, some "n1"⟩], [], [⟨"", 8080, "TCP"⟩]⟩]⟩,
       fun _ => .ok [], fun _ => .ok [], fun _ => .ok ⟨[]⟩⟩
      ⟨"ClusterIP", "", ""⟩ ⟨"", 8080, "TCP"⟩ false
      [⟨"10.0.0.1", 8080, "10.0.0.1:8080", "", some "n1", 50⟩] [] rfl).2.2.1
    (by decide)).1 ⟨"10.0.0.1", 8080, "10.0.0.1:8080", "", some "n1", 50⟩ (by decide)

theorem slicePortMatches_eq_true_iff (svcPort : ServicePort) (p : SliceEndpointPort) :
    slicePortMatches svcPort p = true ↔
      ((if svcPort.protocol ≠ "" then svcPort.protocol else protocolTCP) = p.protocol
        ∧ (svcPort.name = "" ∨ svcPort.name = p.name)) := by
  simp [slicePortMatches, Bool.and_eq_true, Bool.or_eq_true, beq_iff_eq]

theorem sliceEndpointsFor_eq_filter (getW : Option String → Int) (port : Int)
    (es : List SliceEndpoint) (hne : ∀ e ∈ es, e.addresses ≠ []) :
    sliceEndpointsFor getW port es =
      some ((es.filter (fun e => e.ready == none || e.ready == some true)).map
              (fun e => mkSliceEndpoint getW port e (e.addresses.headD "")),
            (es.filter (fun e => !(e.ready == none || e.ready == some true))).map
              (fun e => mkSliceEndpoint getW port e (e.addresses.headD ""))) := by
  induction es with
  | nil => simp [sliceEndpointsFor]
  | cons ep rest ih =>
    have hep : ep.addresses ≠ [] := hne ep (List.mem_cons_self ep rest)
    have hrest : ∀ e ∈ rest, e.addresses ≠ [] := fun e he => hne e (List.mem_cons_of_mem ep he)
    cases haddr : ep.addresses with
    | nil => exact absurd haddr hep
    | cons a0 atl =>
      simp only [sliceEndpointsFor, haddr, ih hrest]
      cases hready : ep.ready with
      | none => simp [List.filter_cons, hready, haddr]
      | some b => cases b <;> simp [List.filter_cons, hready, haddr]

/-- C7: in the slice-based representation a port group contributes
endpoints exactly when its protocol equals the service port's protocol
(defaulting to TCP when unspecified) and, when the service port is named,
the names match; each emitted endpoint goes to the ready list when its
`Ready` condition is absent or true and to the not-ready list only when
it is present and false. -/
theorem createEndpointSlices_filters (getW : Option String → Int)
    (svcPort : ServicePort) (p : SliceEndpointPort) (es : List SliceEndpoint)
    (hne : ∀ e ∈ es, e.addresses ≠ []) :
    (((if svcPort.protocol ≠ "" then svcPort.protocol else protocolTCP) = p.protocol
        ∧ (svcPort.name = "" ∨ svcPort.name = p.name)) →
      createEndpointSlices getW [⟨[p], es⟩] svcPort =
        some ((es.filter (fun e => e.ready == none || e.ready == some true)).map
                (fun e => mkSliceEndpoint getW p.port e (e.addresses.headD "")),
              (es.filter (fun e => !(e.ready == none || e.ready == some true))).map
                (fun e => mkSliceEndpoint getW p.port e (e.addresses.headD ""))))
    ∧ (¬ ((if svcPort.protocol ≠ "" then svcPort.protocol else protocolTCP) = p.protocol
        ∧ (svcPort.name = "" ∨ svcPort.name = p.name)) →
      createEndpointSlices getW [⟨[p], es⟩] svcPort = some ([], [])) := by
  constructor
  · intro hm
    have hmb : slicePortMatches svcPort p = true :=
      (slicePortMatches_eq_true_iff svcPort p).mpr hm
    simp [createEndpointSlices, slicesEndpoints, slicePortsEndpoints, hmb,
      sliceEndpointsFor_eq_filter getW p.port es hne]
  · intro hm
    have hmb : slicePortMatches svcPort p = false := by
      rw [Bool.eq_false_iff]
      intro ht
      exact hm ((slicePortMatches_eq_true_iff svcPort p).mp ht)
    simp [createEndpointSlices, slicesEndpoints, slicePortsEndpoints, hmb]

/-- Witness for C7: scenario D — of two slice endpoints for the same
matching port, the one with `Ready=false` lands in the not-ready list and
the one with an absent readiness flag in the ready list. -/
theorem createEndpointSlices_filters_witness :
    createEndpointSlices (fun _ => 50)
        [⟨[⟨"", 8080, "TCP"⟩],
          [⟨["10.0.0.1"], some false, none, none⟩, ⟨["10.0.0.2"], none, none, none⟩]⟩]
        ⟨"", 8080, "TCP"⟩ =
      some (([⟨["10.0.0.1"], some false, none, none⟩,
              (⟨["10.0.0.2"], none, none, none⟩ : SliceEndpoint)].filter
                (fun e => e.ready == none || e.ready == some true)).map
              (fun e => mkSliceEndpoint (fun _ => 50) 8080 e (e.addresses.headD "")),
            ([⟨["10.0.0.1"], some false, none, none⟩,
              (⟨["10.0.0.2"], none, none, none⟩ : SliceEndpoint)].filter
                (fun e => !(e.ready == none || e.ready == some true))).map
              (fun e => mkSliceEndpoint (fun _ => 50) 8080 e (e.addresses.headD ""))) :=
  (createEndpointSlices_filters (fun _ => 50) ⟨"", 8080, "TCP"⟩ ⟨"", 8080, "TCP"⟩
      [⟨["10.0.0.1"], some false, none, none⟩, ⟨["10.0.0.2"], none, none, none⟩]
      (by decide)).1 (by decide)

theorem sliceEndpointsFor_none (getW : Option String → Int) (port : Int)
    (es : List SliceEndpoint) (e : SliceEndpoint) (he : e ∈ es)
    (ha : e.addresses = []) : sliceEndpointsFor getW port es = none := by
  induction es with
  | nil => exact absurd he (List.not_mem_nil e)
  | cons ep rest ih =>
    rcases List.mem_cons.mp he with rfl | hmem
    · simp [sliceEndpointsFor, ha]
    · cases haddr : ep.addresses with
      | nil => simp [sliceEndpointsFor, haddr]
      | cons a0 atl => simp [sliceEndpointsFor, haddr, ih hmem]

theorem slicePortsEndpoints_none (getW : Option String → Int) (svcPort : ServicePort)
    (slice : EndpointSlice) (ports : List SliceEndpointPort)
    (hex : ∃ p ∈ ports, slicePortMatches svcPort p = true)
    (hep : ∃ e ∈ slice.endpoints, e.addresses = []) :
    slicePortsEndpoints getW svcPort slice ports = none := by
  obtain ⟨e, he, ha⟩ := hep
  induction ports with
  | nil =>
    obtain ⟨p, hp, _⟩ := hex
    exact absurd hp (List.not_mem_nil p)
  | cons q rest ih =>
    by_cases hq : slicePortMatches svcPort q = true
    · simp [slicePortsEndpoints, hq,
        sliceEndpointsFor_none getW q.port slice.endpoints e he ha]
    · have hq2 : slicePortMatches svcPort q = false := Bool.eq_false_iff.mpr hq
      obtain ⟨p, hp, hpm⟩ := hex
      rcases List.mem_cons.mp hp with rfl | hprest
      · exact absurd hpm hq
      · simp only [slicePortsEndpoints, hq2, Bool.false_eq_true, if_false]
        exact ih ⟨p, hprest, hpm⟩

theorem slicesEndpoints_none (getW : Option String → Int) (svcPort : ServicePort)
    (slices : List EndpointSlice) (slice : EndpointSlice) (hs : slice ∈ slices)
    (h : slicePortsEndpoints getW svcPort slice slice.ports = none) :
    slicesEndpoints getW svcPort slices = none := by
  induction slices with
  | nil => exact absurd hs (List.not_mem_nil slice)
  | cons s0 rest ih =>
    rcases List.mem_cons.mp hs with rfl | hmem
    · simp [slicesEndpoints, h]
    · cases h0 : slicePortsEndpoints getW svcPort s0 s0.ports with
      | none => simp [slicesEndpoints, h0]
      | some acc => simp [slicesEndpoints, h0, ih hmem]

/-- C10: slice-based resolution reads the first element of each matched
endpoint's address list unconditionally, so a slice whose matching port
group contains an endpoint with an empty `Addresses` list makes the
out-of-bounds access reachable: the resolution is `none` (the modelled
panic), not an error value. -/
theorem createEndpointSlices_empty_addresses (getW : Option String → Int)
    (svcPort : ServicePort) (slices : List EndpointSlice) (slice : EndpointSlice)
    (p : SliceEndpointPort) (e : SliceEndpoint) (hs : slice ∈ slices)
    (hp : p ∈ slice.ports)
    (hm : (if svcPort.protocol ≠ "" then svcPort.protocol else protocolTCP) = p.protocol
      ∧ (svcPort.name = "" ∨ svcPort.name = p.name))
    (he : e ∈ slice.endpoints) (ha : e.addresses = []) :
    createEndpointSlices getW slices svcPort = none :=
  slicesEndpoints_none getW svcPort slices slice hs
    (slicePortsEndpoints_none getW svcPort slice slice.ports
      ⟨p, hp, (slicePortMatches_eq_true_iff svcPort p).mpr hm⟩ ⟨e, he, ha⟩)

/-- Witness for C10: a concrete slice with a matching port and an
endpoint with no addresses resolves to the modelled panic. -/
theorem createEndpointSlices_empty_addresses_witness :
    createEndpointSlices (fun _ => 50)
        [⟨[⟨"", 8080, "TCP"⟩], [⟨[], none, none, none⟩]⟩] ⟨"", 8080, "TCP"⟩ = none :=
  createEndpointSlices_empty_addresses (fun _ => 50) ⟨"", 8080, "TCP"⟩
    [⟨[⟨"", 8080, "TCP"⟩], [⟨[], none, none, none⟩]⟩]
    ⟨[⟨"", 8080, "TCP"⟩], [⟨[], none, none, none⟩]⟩ ⟨"", 8080, "TCP"⟩
    ⟨[], none, none, none⟩ (by decide) (by decide) (by decide) (by decide) rfl

/-- C8: for an externally-named service, a non-positive declared port
yields the "invalid port" error for every DNS collaborator (the lookup is
never consulted: the result does not depend on it); otherwise each
DNS-resolved address becomes one ready endpoint carrying the declared
port verbatim and the not-ready list is empty. -/
theorem createEndpoints_externalName_spec {ε : Type} (cache : CacheFns ε)
    (svc : Service) (svcPort : ServicePort) (useEndpointSlices : Bool)
    (hT : svc.type = serviceTypeExternalName) :
    (svcPort.port ≤ 0 →
      CreateEndpoints cache svc svcPort useEndpointSlices =
        some (.error (.invalidPort svcPort.port)))
    ∧ (∀ ips, cache.externalNameLookup svc.externalName = .ok ips → 0 < svcPort.port →
        ∃ ready, CreateEndpoints cache svc svcPort useEndpointSlices = some (.ok (ready, []))
          ∧ ready.Perm (ips.map (fun ip => newEndpoint ip svcPort.port none))
          ∧ ∀ e ∈ ready, e.port = svcPort.port) := by
  constructor
  · intro hport
    simp [CreateEndpoints, hT, createEndpointsExternalName, hport]
  · intro ips hl hport
    have hE : createEndpointsExternalName cache.externalNameLookup svc svcPort =
        .ok (ips.map (fun ip => newEndpoint ip svcPort.port none)) := by
      simp [createEndpointsExternalName, not_le.mpr hport, hl]
    refine ⟨sortBy endpointLE (ips.map (fun ip => newEndpoint ip svcPort.port none)),
      ?_, sortBy_perm _ _, ?_⟩
    · simp only [CreateEndpoints, if_pos hT, hE]
      rfl
    · intro e he
      rw [mem_sortBy] at he
      obtain ⟨ip, _, rfl⟩ := List.mem_map.mp he
      rfl

/-- Witness for C8: a concrete external-name service with one resolved
address produces a single ready endpoint with the declared port. -/
theorem createEndpoints_externalName_spec_witness :
    ∃ ready, CreateEndpoints (ε := String)
        ⟨fun _ => .ok ⟨[]⟩, fun _ => .ok [], fun _ => .ok ["1.2.3.4"], fun _ => .ok ⟨[]⟩⟩
        ⟨"ExternalName", "", "x.example.com"⟩ ⟨"", 443, "TCP"⟩ false =
        some (.ok (ready, []))
      ∧ ready.Perm (["1.2.3.4"].map (fun ip => newEndpoint ip
          (ServicePort.mk "" 443 "TCP").port none))
      ∧ ∀ e ∈ ready, e.port = (ServicePort.mk "" 443 "TCP").port :=
  (createEndpoints_externalName_spec (ε := String)
      ⟨fun _ => .ok ⟨[]⟩, fun _ => .ok [], fun _ => .ok ["1.2.3.4"], fun _ => .ok ⟨[]⟩⟩
      ⟨"ExternalName", "", "x.example.com"⟩ ⟨"", 443, "TCP"⟩ false rfl).2
    ["1.2.3.4"] rfl (by decide)

/-- C9 (amended): failures of the DNS external-name lookup, the endpoints
lookup and the endpoint-slice lookup are propagated verbatim (the very
error value the collaborator produced) to the caller of
`CreateEndpoints`; a node-lookup failure, by contrast, is not propagated:
`getNodeWeight` swallows it and falls back to the default weight. -/
theorem createEndpoints_propagates_lookup_errors {ε : Type} (cache : CacheFns ε)
    (svc : Service) (svcPort : ServicePort) :
    (∀ e1, svc.type = serviceTypeExternalName → 0 < svcPort.port →
      cache.externalNameLookup svc.externalName = .error e1 →
      ∀ u, CreateEndpoints cache svc svcPort u = some (.error (.collab e1)))
    ∧ (∀ e1, svc.type ≠ serviceTypeExternalName →
      cache.getEndpointSlices svc = .error e1 →
      CreateEndpoints cache svc svcPort true = some (.error (.collab e1)))
    ∧ (∀ e1, svc.type ≠ serviceTypeExternalName →
      cache.getEndpoints svc = .error e1 →
      CreateEndpoints cache svc svcPort false = some (.error (.collab e1)))
    ∧ (∀ name e1, cache.getNodeByName name = .error e1 →
      getNodeWeight cache.getNodeByName (some name) = defaultServerWeight) := by
  refine ⟨?_, ?_, ?_, ?_⟩
  · intro e1 hT hport hl u
    simp [CreateEndpoints, hT, createEndpointsExternalName, not_le.mpr hport, hl]
  · intro e1 hT hS
    simp [CreateEndpoints, hT, hS]
  · intro e1 hT hG
    simp [CreateEndpoints, hT, hG]
  · intro name e1 hn
    simp [getNodeWeight, hn]

/-- Witness for C9 (amended): a failing endpoints lookup on the legacy
path surfaces as exactly the collaborator's error value. -/
theorem createEndpoints_propagates_lookup_errors_witness :
    CreateEndpoints (ε := String)
        ⟨fun _ => .error "endpoints lookup failed", fun _ => .ok [], fun _ => .ok [],
         fun _ => .ok ⟨[]⟩⟩ ⟨"ClusterIP", "", ""⟩ ⟨"", 8080, "TCP"⟩ false =
      some (.error (.collab "endpoints lookup failed")) :=
  (createEndpoints_propagates_lookup_errors (ε := String)
      ⟨fun _ => .error "endpoints lookup failed", fun _ => .ok [], fun _ => .ok [],
       fun _ => .ok ⟨[]⟩⟩ ⟨"ClusterIP", "", ""⟩ ⟨"", 8080, "TCP"⟩).2.2.1
    "endpoints lookup failed" (by decide) rfl

/-- C9 counterexample: a failing node lookup is not propagated —
`CreateEndpoints` still returns a successful result, with the default
weight 50 substituted for the failed lookup. -/
theorem node_lookup_failure_not_propagated :
    CacheFns.getNodeByName (ε := String)
        ⟨fun _ => .ok ⟨[⟨[⟨"10.0.0.1", none, some "n1"⟩], [], [⟨"", 8080, "TCP"⟩]⟩]⟩,
         fun _ => .ok [], fun _ => .ok [], fun _ => .error "node lookup failed"⟩ "n1"
      = .error "node lookup failed"
    ∧ CreateEndpoints (ε := String)
        ⟨fun _ => .ok ⟨[⟨[⟨"10.0.0.1", none, some "n1"⟩], [], [⟨"", 8080, "TCP"⟩]⟩]⟩,
         fun _ => .ok [], fun _ => .ok [], fun _ => .error "node lookup failed"⟩
        ⟨"ClusterIP", "", ""⟩ ⟨"", 8080, "TCP"⟩ false =
      some (.ok ([⟨"10.0.0.1", 8080, "10.0.0.1:8080", "", some "n1", 50⟩], [])) :=
  ⟨rfl, rfl⟩

end HAProxyIngress
